import Mathlib

/-!
Verification of the paginated name resolver and nested-struct flattener of
`ibm/service/vpc/data_source_ibm_is_vpc_address_prefix.go`
(`dataSourceIBMIsVPCAddressPrefixRead` and
`dataSourceIBMIsVPCAddressPrefixZoneReferenceToMap`).

Go pointer fields (`*string`, `*bool`, nested reference pointers) are
embedded as `Option`; dereferencing a nil pointer is made explicit as a
distinguished crash outcome.  The remote VPC API is embedded as a response
chain (`Server`): the response to each successive list call in order, each
carrying the records of that page and the continuation cursor extracted by
`flex.GetNext` from the collection's `Next` link.  Call counts are threaded
through the embedding so that statements about "how many list/get calls
were made" are expressible.
-/

namespace VpcAddressPrefix

/-- Embedding of `vpcv1.ZoneReference` (fields `Href`, `Name`, both `*string`). -/
structure ZoneReference where
  Href : Option String
  Name : Option String
  deriving Repr, DecidableEq

/-- Embedding of `vpcv1.AddressPrefix` (the fields read by the data source;
all pointers in the Go SDK struct, hence `Option` here). -/
structure AddressPrefix where
  ID : Option String
  Name : Option String
  CIDR : Option String
  CreatedAt : Option String
  HasSubnets : Option Bool
  Href : Option String
  IsDefault : Option Bool
  Zone : Option ZoneReference
  deriving Repr, DecidableEq

/-- Embedding of `vpcv1.VPC` (the fields read by the data source: `ID`, `Name`). -/
structure VPC where
  ID : Option String
  Name : Option String
  deriving Repr, DecidableEq

/-- Modelled from the spec: `flex.GetNext` (package `ibm/flex`, not under src/)
extracts the continuation token from a collection's `Next` link, yielding the
empty string when the link is absent ("empty/absent when no further pages
exist"). -/
def GetNext : Option String → String
  | none => ""
  | some s => s

/-- The remote paginated list endpoint, embedded as the chain of responses it
returns to the successive list calls of one resolution:
`fail e` — this call fails with underlying error `e`;
`done recs` — this call returns page `recs` with an absent `Next` link
(so `GetNext` yields `""`);
`page recs cursor rest` — this call returns page `recs` with a `Next` link
from which `GetNext` extracts `cursor`, and `rest` answers the following
calls. -/
inductive Server (α : Type) where
  | fail (e : String)
  | done (recs : List α)
  | page (recs : List α) (cursor : String) (rest : Server α)

/-- Pagination loop of `dataSourceIBMIsVPCAddressPrefixRead` (lines 117-133
for VPCs, lines 169-184 for address prefixes): repeatedly call the list
endpoint, append each page's records to `allrecs`, and break when the cursor
extracted from the page's `Next` link is `""`.  Returns the accumulated
records together with the number of list calls made; on a failing call it
aborts at once, returning the underlying error and the number of calls made
up to and including the failing one. -/
def paginate {α : Type} : Server α → List α → Nat → Except (String × Nat) (List α × Nat)
  | .fail e, _, calls => .error (e, calls + 1)
  | .done recs, acc, calls => .ok (acc ++ recs, calls + 1)
  | .page recs cursor rest, acc, calls =>
      if cursor = "" then .ok (acc ++ recs, calls + 1)
      else paginate rest (acc ++ recs) (calls + 1)

/-- Whether every list call of the chain succeeds (no `fail` reachable by the
pagination loop). -/
def Server.ok {α : Type} : Server α → Bool
  | .fail _ => false
  | .done _ => true
  | .page _ cursor rest => if cursor = "" then true else rest.ok

/-- Number of pages the pagination loop fetches from a chain with no reachable
failure: one per call, up to and including the page whose cursor is empty. -/
def Server.pageCount {α : Type} : Server α → Nat
  | .fail _ => 1
  | .done _ => 1
  | .page _ cursor rest => if cursor = "" then 1 else 1 + rest.pageCount

/-- All records of the chain in page order (pages concatenated in the order
the API returns them, records in their in-page order), up to the page whose
cursor is empty. -/
def Server.allRecords {α : Type} : Server α → List α
  | .fail _ => []
  | .done recs => recs
  | .page recs cursor rest => if cursor = "" then recs else recs ++ rest.allRecords

/-- First failing call reachable by the pagination loop, if any, together
with its 1-based call index. -/
def Server.firstFailure {α : Type} : Server α → Option (String × Nat)
  | .fail e => some (e, 1)
  | .done _ => none
  | .page _ cursor rest =>
      if cursor = "" then none
      else (rest.firstFailure).map (fun p => (p.1, p.2 + 1))

/-- Outcome of scanning the accumulated records for a name (lines 134-141 for
VPCs, 185-192 for address prefixes): the loop body dereferences the record's
`Name` pointer (`*vpc.Name`, `*addressPrefixItem.Name`) with no nil check, so
a record with nil `Name` reached before any match crashes the scan. -/
inductive ScanResult (α : Type) where
  | found (r : α)
  | notFound
  | nilNameDeref
  deriving Repr, DecidableEq

/-- Name scan of `dataSourceIBMIsVPCAddressPrefixRead`: walk the accumulated
records in order, compare the dereferenced `Name` against the target with
exact string equality, and break on the first match. -/
def scanForName {α : Type} (getName : α → Option String) (target : String) :
    List α → ScanResult α
  | [] => .notFound
  | r :: rest =>
      match getName r with
      | none => .nilNameDeref
      | some n => if n = target then .found r else scanForName getName target rest

/-- Error outcomes of `dataSourceIBMIsVPCAddressPrefixRead`, one constructor
per `return tfErr.GetDiag()` site, each carrying what the wrapping
`flex.TerraformErrorf` call preserves of the underlying cause; the two
nil-pointer dereferences of the scans (`*.Name` at lines 136/187, `*vpc.ID`
at line 137) are explicit crash outcomes. -/
inductive ReadError where
  | remoteListVpcs (e : String)
  | vpcNotFound (name : String)
  | remoteGet (e : String)
  | remoteListPrefixes (e : String)
  | prefixNotFound (name : String)
  | nilNameDeref
  | nilIdDeref
  deriving Repr, DecidableEq

/-- The four user-settable arguments of the data source, as the handler reads
them with `d.Get` (line 109-112; an unset `schema.TypeString` argument reads
as `""`). -/
structure ReadInput where
  vpc : String
  vpc_name : String
  address_prefix : String
  address_prefix_name : String
  deriving Repr, DecidableEq

/-- The remote IBM VPC API as the handler sees it: the response chain of
`ListVpcsWithContext`, the `GetVPCAddressPrefixWithContext` endpoint (keyed
by VPC id and address prefix id), and the response chain of
`ListVPCAddressPrefixesWithContext` (keyed by VPC id). -/
structure RemoteApi where
  vpcServer : Server VPC
  getVPCAddressPrefix : String → String → Except String AddressPrefix
  prefixServer : String → Server AddressPrefix

/-- Result of one invocation of the read handler: the resolved record or the
error, together with how many `ListVpcsWithContext`,
`GetVPCAddressPrefixWithContext` and `ListVPCAddressPrefixesWithContext`
calls were made. -/
structure ReadOutcome where
  result : Except ReadError AddressPrefix
  vpcListCalls : Nat
  getByIdCalls : Nat
  prefixListCalls : Nat
  deriving Repr

/-- Lines 149-199 of `dataSourceIBMIsVPCAddressPrefixRead`: with the VPC id
in hand, either fetch the address prefix directly by id (lines 149-162,
`address_prefix_id != ""`), or paginate `ListVPCAddressPrefixesWithContext`
to exhaustion and scan the accumulated records for
`address_prefix_name` (lines 163-198).  `vpcCalls` is the number of VPC list
calls already made while resolving the VPC id. -/
def resolveTarget (api : RemoteApi) (input : ReadInput) (vpc_id : String)
    (vpcCalls : Nat) : ReadOutcome :=
  if input.address_prefix ≠ "" then
    match api.getVPCAddressPrefix vpc_id input.address_prefix with
    | .error e => ⟨.error (.remoteGet e), vpcCalls, 1, 0⟩
    | .ok addressPrefix1 => ⟨.ok addressPrefix1, vpcCalls, 1, 0⟩
  else
    match paginate (api.prefixServer vpc_id) [] 0 with
    | .error (e, n) => ⟨.error (.remoteListPrefixes e), vpcCalls, 0, n⟩
    | .ok (allrecs, n) =>
        match scanForName AddressPrefix.Name input.address_prefix_name allrecs with
        | .nilNameDeref => ⟨.error .nilNameDeref, vpcCalls, 0, n⟩
        | .notFound => ⟨.error (.prefixNotFound input.address_prefix_name), vpcCalls, 0, n⟩
        | .found addressPrefix => ⟨.ok addressPrefix, vpcCalls, 0, n⟩

/-- Resolution phase of `dataSourceIBMIsVPCAddressPrefixRead` (lines
109-199): if `vpc` is unset, paginate `ListVpcsWithContext` to exhaustion
and scan for `vpc_name`, dereferencing the found record's `ID` (line 137);
then resolve the address prefix by id or by name. -/
def dataSourceIBMIsVPCAddressPrefixRead (api : RemoteApi) (input : ReadInput) :
    ReadOutcome :=
  if input.vpc = "" then
    match paginate api.vpcServer [] 0 with
    | .error (e, n) => ⟨.error (.remoteListVpcs e), n, 0, 0⟩
    | .ok (allrecs, n) =>
        match scanForName VPC.Name input.vpc_name allrecs with
        | .nilNameDeref => ⟨.error .nilNameDeref, n, 0, 0⟩
        | .notFound => ⟨.error (.vpcNotFound input.vpc_name), n, 0, 0⟩
        | .found vpc =>
            match vpc.ID with
            | none => ⟨.error .nilIdDeref, n, 0, 0⟩
            | some vpc_id => resolveTarget api input vpc_id n
  else resolveTarget api input input.vpc 0

/-- Embedding of `dataSourceIBMIsVPCAddressPrefixZoneReferenceToMap` (lines
240-249): start from an empty map, add `"href"` only when `model.Href` is
non-nil, add `"name"` only when `model.Name` is non-nil, and return the map
together with the error value, which is always `nil` (`return modelMap,
nil`). -/
def dataSourceIBMIsVPCAddressPrefixZoneReferenceToMap (model : ZoneReference) :
    List (String × String) × Option String :=
  let m1 : List (String × String) :=
    match model.Href with
    | some h => [("href", h)]
    | none => []
  let m2 : List (String × String) :=
    match model.Name with
    | some n => m1 ++ [("name", n)]
    | none => m1
  (m2, none)

/-- Modelled from the spec: `flex.DateTimeToString` (package `ibm/flex`, not
under src/) renders a timestamp pointer as a string, the empty string when
the pointer is nil. -/
def DateTimeToString : Option String → String
  | none => ""
  | some s => s

/-- Values the handler passes to `d.Set`: a `*string` field (possibly nil), a
plain string, a `*bool` field (possibly nil), or the `zone` list of flattened
zone-reference maps. -/
inductive AttrValue where
  | str (s : Option String)
  | strVal (s : String)
  | boolv (b : Option Bool)
  | zoneList (z : List (List (String × String)))
  deriving Repr, DecidableEq

/-- Flattening phase of `dataSourceIBMIsVPCAddressPrefixRead`, top-level
fields (lines 201-223): one `d.Set` per declared computed field, each passed
the corresponding record field unconditionally (nil pointers included). -/
def flatBase (addressPrefix : AddressPrefix) : List (String × AttrValue) :=
  [("cidr", .str addressPrefix.CIDR),
   ("created_at", .strVal (DateTimeToString addressPrefix.CreatedAt)),
   ("has_subnets", .boolv addressPrefix.HasSubnets),
   ("href", .str addressPrefix.Href),
   ("is_default", .boolv addressPrefix.IsDefault),
   ("name", .str addressPrefix.Name)]

/-- Continuation of the flattening phase: the `zone` attribute (lines
225-235), empty when `addressPrefix.Zone` is nil and otherwise the singleton
of the flattened zone reference, with the zone-to-map error branch (lines
228-230) aborting the flattening. -/
def flattenAddressPrefix (addressPrefix : AddressPrefix) :
    Except String (List (String × AttrValue)) :=
  match addressPrefix.Zone with
  | none => .ok (flatBase addressPrefix ++ [("zone", .zoneList [])])
  | some z =>
      match dataSourceIBMIsVPCAddressPrefixZoneReferenceToMap z with
      | (_, some e) => .error e
      | (modelMap, none) =>
          .ok (flatBase addressPrefix ++ [("zone", .zoneList [modelMap])])

/-- Errors surfaced by the framework-validated data source: the
ambiguous-input precondition violation (carrying the offending argument
pair), or an error of the read handler itself. -/
inductive FrameworkError where
  | ambiguousInput (field1 field2 : String)
  | readError (e : ReadError)
  deriving Repr, DecidableEq

/-- Result of a framework-validated read: the outcome plus the remote call
counts (all zero when validation rejected the input before the handler
ran). -/
structure FrameworkOutcome where
  result : Except FrameworkError AddressPrefix
  vpcListCalls : Nat
  getByIdCalls : Nat
  prefixListCalls : Nat
  deriving Repr

/-- Modelled from the spec: the Terraform plugin SDK (an external
collaborator, not under src/) enforces the schema's `ExactlyOneOf`
declarations (lines 24-47: `{"vpc", "vpc_name"}` and `{"address_prefix",
"address_prefix_name"}`) before ever invoking the registered `ReadContext`
callback; a configuration supplying both or neither member of a pair "fails
fast, does not attempt any remote call" with an ambiguous-input error.  An
argument is supplied exactly when it is non-empty. -/
def frameworkRead (api : RemoteApi) (input : ReadInput) : FrameworkOutcome :=
  if (input.vpc == "") == (input.vpc_name == "") then
    ⟨.error (.ambiguousInput "vpc" "vpc_name"), 0, 0, 0⟩
  else if (input.address_prefix == "") == (input.address_prefix_name == "") then
    ⟨.error (.ambiguousInput "address_prefix" "address_prefix_name"), 0, 0, 0⟩
  else
    let out := dataSourceIBMIsVPCAddressPrefixRead api input
    ⟨out.result.mapError .readError, out.vpcListCalls, out.getByIdCalls,
      out.prefixListCalls⟩

/-! Core lemmas about the pagination loop and the name scan. -/

/-- On a chain with no reachable failure, the pagination loop returns all
records in page order and makes exactly one list call per page. -/
theorem paginate_ok {α : Type} (s : Server α) (acc : List α) (calls : Nat)
    (h : s.ok = true) :
    paginate s acc calls = .ok (acc ++ s.allRecords, calls + s.pageCount) := by
  induction s generalizing acc calls with
  | fail e => simp [Server.ok] at h
  | done recs => simp [paginate, Server.allRecords, Server.pageCount]
  | page recs cursor rest ih =>
      by_cases hc : cursor = ""
      · simp [paginate, Server.allRecords, Server.pageCount, hc]
      · rw [Server.ok] at h
        simp only [hc, if_false] at h
        simp [paginate, Server.allRecords, Server.pageCount, hc, ih _ _ h,
          Nat.add_assoc, Nat.add_comm 1 rest.pageCount]

/-- If the `k`-th list call fails, the pagination loop aborts there: it
returns the underlying error having made exactly `k` calls. -/
theorem paginate_fail {α : Type} (s : Server α) (acc : List α) (calls : Nat)
    (e : String) (k : Nat) (h : s.firstFailure = some (e, k)) :
    paginate s acc calls = .error (e, calls + k) := by
  induction s generalizing acc calls k with
  | fail e₂ =>
      simp [Server.firstFailure] at h
      simp [paginate, h.1, h.2]
  | done recs => simp [Server.firstFailure] at h
  | page recs cursor rest ih =>
      by_cases hc : cursor = ""
      · simp [Server.firstFailure, hc] at h
      · rw [Server.firstFailure] at h
        simp only [hc, if_false, Option.map_eq_some'] at h
        obtain ⟨⟨e₃, k₃⟩, hp, heq⟩ := h
        obtain ⟨he, hk⟩ := Prod.mk.injEq .. ▸ heq
        subst he hk
        simp [paginate, hc, ih _ _ _ hp, Nat.add_assoc, Nat.add_comm 1 k₃]

/-- If every record's name is non-nil and none equals the target, the scan
reaches the end of the list and reports not-found. -/
theorem scan_notFound {α : Type} (getName : α → Option String) (target : String)
    (recs : List α)
    (h : ∀ r ∈ recs, ∃ n, getName r = some n ∧ n ≠ target) :
    scanForName getName target recs = .notFound := by
  induction recs with
  | nil => rfl
  | cons r rest ih =>
      obtain ⟨n, hn, hne⟩ := h r (List.mem_cons_self r rest)
      rw [scanForName, hn]
      simp only [hne, if_false]
      exact ih fun x hx => h x (List.mem_cons_of_mem r hx)

/-- If every record before `r` has a non-nil name different from the target
and `r`'s name is the target, the scan stops at `r` and returns it — the
earliest match in page order wins, whatever comes after it. -/
theorem scan_found {α : Type} (getName : α → Option String) (target : String)
    (l₁ l₂ : List α) (r : α)
    (h₁ : ∀ x ∈ l₁, ∃ n, getName x = some n ∧ n ≠ target)
    (hr : getName r = some target) :
    scanForName getName target (l₁ ++ r :: l₂) = .found r := by
  induction l₁ with
  | nil => simp [scanForName, hr]
  | cons x rest ih =>
      obtain ⟨n, hn, hne⟩ := h₁ x (List.mem_cons_self x rest)
      rw [List.cons_append, scanForName, hn]
      simp only [hne, if_false]
      exact ih fun y hy => h₁ y (List.mem_cons_of_mem x hy)

/-- If every record's name is non-nil, the scan never hits the
nil-dereference branch. -/
theorem scan_no_crash {α : Type} (getName : α → Option String) (target : String)
    (recs : List α) (h : ∀ r ∈ recs, (getName r).isSome) :
    scanForName getName target recs ≠ .nilNameDeref := by
  induction recs with
  | nil => simp [scanForName]
  | cons r rest ih =>
      have hr := h r (List.mem_cons_self r rest)
      obtain ⟨n, hn⟩ := Option.isSome_iff_exists.mp hr
      rw [scanForName, hn]
      by_cases hnt : n = target
      · simp [hnt]
      · simp only [hnt, if_false]
        exact ih fun x hx => h x (List.mem_cons_of_mem r hx)

/-- Whatever the pagination loop returns successfully is exactly the
accumulator followed by all records of the chain in page order. -/
theorem paginate_ok_inv {α : Type} (s : Server α) (acc : List α) (calls : Nat)
    (l : List α) (n : Nat) (h : paginate s acc calls = .ok (l, n)) :
    l = acc ++ s.allRecords := by
  induction s generalizing acc calls with
  | fail e => simp [paginate] at h
  | done recs =>
      simp only [paginate, Except.ok.injEq, Prod.mk.injEq] at h
      rw [Server.allRecords, ← h.1]
  | page recs cursor rest ih =>
      by_cases hc : cursor = ""
      · rw [paginate, if_pos hc] at h
        simp only [Except.ok.injEq, Prod.mk.injEq] at h
        rw [Server.allRecords, if_pos hc, ← h.1]
      · rw [paginate, if_neg hc] at h
        rw [Server.allRecords, if_neg hc, ih _ _ h, List.append_assoc]

/-- With the VPC id supplied directly, the read handler skips the VPC name
lookup and goes straight to target resolution. -/
theorem read_vpc_given (api : RemoteApi) (input : ReadInput)
    (h1 : input.vpc ≠ "") :
    dataSourceIBMIsVPCAddressPrefixRead api input =
      resolveTarget api input input.vpc 0 := by
  unfold dataSourceIBMIsVPCAddressPrefixRead
  rw [if_neg h1]

/-- With the address prefix requested by name against a failure-free chain,
target resolution exhausts all pages and dispatches on the name scan of the
full record list. -/
theorem resolveTarget_by_name (api : RemoteApi) (input : ReadInput)
    (vpc_id : String) (vpcCalls : Nat) (h2 : input.address_prefix = "")
    (hok : (api.prefixServer vpc_id).ok = true) :
    resolveTarget api input vpc_id vpcCalls =
      match scanForName AddressPrefix.Name input.address_prefix_name
          (api.prefixServer vpc_id).allRecords with
      | .nilNameDeref =>
          ⟨.error .nilNameDeref, vpcCalls, 0, (api.prefixServer vpc_id).pageCount⟩
      | .notFound =>
          ⟨.error (.prefixNotFound input.address_prefix_name), vpcCalls, 0,
            (api.prefixServer vpc_id).pageCount⟩
      | .found addressPrefix =>
          ⟨.ok addressPrefix, vpcCalls, 0, (api.prefixServer vpc_id).pageCount⟩ := by
  unfold resolveTarget
  rw [if_neg (by simp [h2]), paginate_ok _ _ _ hok]
  simp only [List.nil_append, Nat.zero_add]

/-- With the VPC requested by name against a failure-free VPC listing, the
handler exhausts the VPC pages and dispatches on the name scan of the full
VPC record list (lines 114-147). -/
theorem read_vpc_lookup (api : RemoteApi) (input : ReadInput)
    (hvpc : input.vpc = "") (hok : api.vpcServer.ok = true) :
    dataSourceIBMIsVPCAddressPrefixRead api input =
      match scanForName VPC.Name input.vpc_name api.vpcServer.allRecords with
      | .nilNameDeref =>
          ⟨.error .nilNameDeref, api.vpcServer.pageCount, 0, 0⟩
      | .notFound =>
          ⟨.error (.vpcNotFound input.vpc_name), api.vpcServer.pageCount, 0, 0⟩
      | .found vpc =>
          match vpc.ID with
          | none => ⟨.error .nilIdDeref, api.vpcServer.pageCount, 0, 0⟩
          | some vpc_id => resolveTarget api input vpc_id api.vpcServer.pageCount := by
  unfold dataSourceIBMIsVPCAddressPrefixRead
  rw [if_pos hvpc, paginate_ok _ _ _ hok]
  simp only [List.nil_append, Nat.zero_add]

/-! Concrete fixtures used by counterexamples and witnesses. -/

/-- An address prefix record with the given id and name and every other
pointer field nil. -/
def mkPrefix (id name : String) : AddressPrefix :=
  ⟨some id, some name, none, none, none, none, none, none⟩

/-- Request: VPC by id, address prefix by name `"alpha"`. -/
def inputAlpha : ReadInput := ⟨"vpc-1", "", "", "alpha"⟩

/-- A four-page address prefix listing whose only `"alpha"` record sits on
the third page; a fourth page follows it. -/
def serverFourPages : Server AddressPrefix :=
  .page [mkPrefix "p1" "beta"] "c2"
    (.page [mkPrefix "p2" "gamma"] "c3"
      (.page [mkPrefix "p3" "alpha"] "c4"
        (.done [mkPrefix "p4" "delta"])))

/-- Remote API serving `serverFourPages` as the address prefix listing of
every VPC. -/
def apiFourPages : RemoteApi :=
  ⟨Server.done [], fun _ _ => Except.error "unused", fun _ => serverFourPages⟩

/-- C1: the claim asserts that with the matching name only on the third page
the resolver makes exactly 3 list calls and stops paginating at the match.
On a four-page listing with `"alpha"` only on page 3, the code returns that
record but makes 4 `ListVPCAddressPrefixesWithContext` calls, not 3: the
loop at lines 169-184 accumulates every page until the cursor is empty and
only then scans (lines 185-192), so the match does not stop pagination. -/
theorem C1_counterexample :
    (dataSourceIBMIsVPCAddressPrefixRead apiFourPages inputAlpha).result =
      .ok (mkPrefix "p3" "alpha") ∧
    (dataSourceIBMIsVPCAddressPrefixRead apiFourPages inputAlpha).prefixListCalls = 4 ∧
    (dataSourceIBMIsVPCAddressPrefixRead apiFourPages inputAlpha).prefixListCalls ≠ 3 :=
  ⟨rfl, rfl, by decide⟩

/-- C1 (amended): when the requested name first appears on some page of a
failure-free listing, the resolver returns that record, but it issues one
list call per page of the whole listing — pagination runs to exhaustion
before the scan, so the call count is the total page count (3 only when the
listing has exactly 3 pages), not the index of the matching page. -/
theorem C1_amended (api : RemoteApi) (input : ReadInput)
    (h1 : input.vpc ≠ "") (h2 : input.address_prefix = "")
    (hok : (api.prefixServer input.vpc).ok = true)
    (l₁ l₂ : List AddressPrefix) (r : AddressPrefix)
    (hsplit : (api.prefixServer input.vpc).allRecords = l₁ ++ r :: l₂)
    (hbefore : ∀ x ∈ l₁, ∃ n, x.Name = some n ∧ n ≠ input.address_prefix_name)
    (hr : r.Name = some input.address_prefix_name) :
    (dataSourceIBMIsVPCAddressPrefixRead api input).result = .ok r ∧
    (dataSourceIBMIsVPCAddressPrefixRead api input).prefixListCalls =
      (api.prefixServer input.vpc).pageCount := by
  have hscan : scanForName AddressPrefix.Name input.address_prefix_name
      (api.prefixServer input.vpc).allRecords = .found r := by
    rw [hsplit]
    exact scan_found _ _ _ _ _ hbefore hr
  rw [read_vpc_given api input h1, resolveTarget_by_name api input input.vpc 0 h2 hok,
    hscan]
  exact ⟨rfl, rfl⟩

/-- C1 (amended) witness at the four-page fixture: the record is returned
and the call count is the page count, 4. -/
theorem C1_amended_witness :
    (dataSourceIBMIsVPCAddressPrefixRead apiFourPages inputAlpha).result =
      .ok (mkPrefix "p3" "alpha") ∧
    (dataSourceIBMIsVPCAddressPrefixRead apiFourPages inputAlpha).prefixListCalls = 4 := by
  have h := C1_amended apiFourPages inputAlpha (by decide) rfl rfl
    [mkPrefix "p1" "beta", mkPrefix "p2" "gamma"] [mkPrefix "p4" "delta"]
    (mkPrefix "p3" "alpha") rfl
    (fun x hx => by
      have hmem : x = mkPrefix "p1" "beta" ∨ x = mkPrefix "p2" "gamma" := by
        simpa using hx
      rcases hmem with rfl | rfl
      · exact ⟨"beta", rfl, by decide⟩
      · exact ⟨"gamma", rfl, by decide⟩)
    rfl
  exact h

/-- C2: every name-lookup whose failure-free listing exhausts (the loop
breaks at the page whose extracted cursor is empty, having made one call per
page) without a matching name ends in the not-found error carrying the
searched name: the VPC name lookup (lines 134-147, `vpcNotFound` with
`vpc_name`), the address prefix lookup entered with the VPC id given (lines
193-198, `prefixNotFound` with `address_prefix_name`), and the address
prefix lookup entered after a successful VPC name resolution. -/
theorem C2_not_found (api : RemoteApi) (input : ReadInput) :
    (input.vpc = "" → api.vpcServer.ok = true →
      (∀ v ∈ api.vpcServer.allRecords, ∃ n, v.Name = some n ∧ n ≠ input.vpc_name) →
      (dataSourceIBMIsVPCAddressPrefixRead api input).result =
        .error (.vpcNotFound input.vpc_name) ∧
      (dataSourceIBMIsVPCAddressPrefixRead api input).vpcListCalls =
        api.vpcServer.pageCount) ∧
    (input.vpc ≠ "" → input.address_prefix = "" →
      (api.prefixServer input.vpc).ok = true →
      (∀ r ∈ (api.prefixServer input.vpc).allRecords,
        ∃ n, r.Name = some n ∧ n ≠ input.address_prefix_name) →
      (dataSourceIBMIsVPCAddressPrefixRead api input).result =
        .error (.prefixNotFound input.address_prefix_name) ∧
      (dataSourceIBMIsVPCAddressPrefixRead api input).prefixListCalls =
        (api.prefixServer input.vpc).pageCount) ∧
    (input.vpc = "" → input.address_prefix = "" → api.vpcServer.ok = true →
      ∀ v l₁ l₂, api.vpcServer.allRecords = l₁ ++ v :: l₂ →
      (∀ x ∈ l₁, ∃ n, x.Name = some n ∧ n ≠ input.vpc_name) →
      v.Name = some input.vpc_name →
      ∀ vid, v.ID = some vid →
      (api.prefixServer vid).ok = true →
      (∀ r ∈ (api.prefixServer vid).allRecords,
        ∃ n, r.Name = some n ∧ n ≠ input.address_prefix_name) →
      (dataSourceIBMIsVPCAddressPrefixRead api input).result =
        .error (.prefixNotFound input.address_prefix_name) ∧
      (dataSourceIBMIsVPCAddressPrefixRead api input).prefixListCalls =
        (api.prefixServer vid).pageCount) := by
  refine ⟨?_, ?_, ?_⟩
  · intro hvpc hok hnone
    have hread : dataSourceIBMIsVPCAddressPrefixRead api input =
        ⟨.error (.vpcNotFound input.vpc_name), api.vpcServer.pageCount, 0, 0⟩ := by
      rw [read_vpc_lookup api input hvpc hok, scan_notFound _ _ _ hnone]
    rw [hread]
    exact ⟨rfl, rfl⟩
  · intro h1 h2 hok hnone
    rw [read_vpc_given api input h1, resolveTarget_by_name api input input.vpc 0 h2 hok,
      scan_notFound _ _ _ hnone]
    exact ⟨rfl, rfl⟩
  · intro hvpc h2 hok v l₁ l₂ hsplit hbefore hname vid hvid hpok hnone
    have hscan : scanForName VPC.Name input.vpc_name api.vpcServer.allRecords =
        .found v := by
      rw [hsplit]
      exact scan_found _ _ _ _ _ hbefore hname
    have hread : dataSourceIBMIsVPCAddressPrefixRead api input =
        ⟨.error (.prefixNotFound input.address_prefix_name), api.vpcServer.pageCount,
          0, (api.prefixServer vid).pageCount⟩ := by
      rw [read_vpc_lookup api input hvpc hok]
      simp only [hscan, hvid]
      rw [resolveTarget_by_name api input vid api.vpcServer.pageCount h2 hpok,
        scan_notFound _ _ _ hnone]
    rw [hread]
    exact ⟨rfl, rfl⟩

/-- Two-page listing containing no `"alpha"` record at all. -/
def serverNoAlpha : Server AddressPrefix :=
  .page [mkPrefix "p1" "beta"] "c2" (.done [mkPrefix "p2" "gamma"])

/-- Remote API serving `serverNoAlpha` as every VPC's address prefix
listing. -/
def apiNoAlpha : RemoteApi :=
  ⟨Server.done [], fun _ _ => Except.error "unused", fun _ => serverNoAlpha⟩

/-- Request: VPC by name `"myvpc"`, address prefix by name `"alpha"`. -/
def inputVpcByName : ReadInput := ⟨"", "myvpc", "", "alpha"⟩

/-- The VPC record named `"myvpc"` with id `"vpc-9"`. -/
def vpcRecord : VPC := ⟨some "vpc-9", some "myvpc"⟩

/-- Remote API whose one-page VPC listing holds `vpcRecord` and whose
address prefix listing is the alpha-free `serverNoAlpha`. -/
def apiVpcThenNoAlpha : RemoteApi :=
  ⟨Server.done [vpcRecord], fun _ _ => Except.error "unused",
    fun _ => serverNoAlpha⟩

/-- C2 witness, one scenario per lookup: the empty VPC listing exhausts
after 1 call and reports `vpcNotFound "myvpc"`; the two-page alpha-free
prefix listing (VPC id given) exhausts after 2 calls and reports
`prefixNotFound "alpha"`; after resolving `"myvpc"` to `"vpc-9"` the same
alpha-free prefix listing again reports `prefixNotFound "alpha"` after 2
calls. -/
theorem C2_witness :
    ((dataSourceIBMIsVPCAddressPrefixRead apiNoAlpha inputVpcByName).result =
        .error (.vpcNotFound "myvpc") ∧
      (dataSourceIBMIsVPCAddressPrefixRead apiNoAlpha inputVpcByName).vpcListCalls = 1) ∧
    ((dataSourceIBMIsVPCAddressPrefixRead apiNoAlpha inputAlpha).result =
        .error (.prefixNotFound "alpha") ∧
      (dataSourceIBMIsVPCAddressPrefixRead apiNoAlpha inputAlpha).prefixListCalls = 2) ∧
    ((dataSourceIBMIsVPCAddressPrefixRead apiVpcThenNoAlpha inputVpcByName).result =
        .error (.prefixNotFound "alpha") ∧
      (dataSourceIBMIsVPCAddressPrefixRead apiVpcThenNoAlpha inputVpcByName).prefixListCalls = 2) := by
  refine ⟨?_, ?_, ?_⟩
  · exact (C2_not_found apiNoAlpha inputVpcByName).1 rfl rfl (fun v hv => by cases hv)
  · exact (C2_not_found apiNoAlpha inputAlpha).2.1 (by decide) rfl rfl
      (fun r hr => by
        have hrec : (apiNoAlpha.prefixServer inputAlpha.vpc).allRecords =
            [mkPrefix "p1" "beta", mkPrefix "p2" "gamma"] := rfl
        rw [hrec] at hr
        have hmem : r = mkPrefix "p1" "beta" ∨ r = mkPrefix "p2" "gamma" := by
          simpa using hr
        rcases hmem with rfl | rfl
        · exact ⟨"beta", rfl, by decide⟩
        · exact ⟨"gamma", rfl, by decide⟩)
  · exact (C2_not_found apiVpcThenNoAlpha inputVpcByName).2.2 rfl rfl rfl
      vpcRecord [] [] rfl (fun x hx => by cases hx) rfl "vpc-9" rfl rfl
      (fun r hr => by
        have hrec : (apiVpcThenNoAlpha.prefixServer "vpc-9").allRecords =
            [mkPrefix "p1" "beta", mkPrefix "p2" "gamma"] := rfl
        rw [hrec] at hr
        have hmem : r = mkPrefix "p1" "beta" ∨ r = mkPrefix "p2" "gamma" := by
          simpa using hr
        rcases hmem with rfl | rfl
        · exact ⟨"beta", rfl, by decide⟩
        · exact ⟨"gamma", rfl, by decide⟩)

/-- C3: with two records of the requested name on different pages of a
failure-free listing, the scan over the pages concatenated in API order
(lines 185-192) breaks at the first match, so the record on the earlier page
is returned; nothing is re-sorted. -/
theorem C3_first_match (api : RemoteApi) (input : ReadInput)
    (h1 : input.vpc ≠ "") (h2 : input.address_prefix = "")
    (hok : (api.prefixServer input.vpc).ok = true)
    (l₁ l₂ l₃ : List AddressPrefix) (r r₂ : AddressPrefix)
    (hsplit : (api.prefixServer input.vpc).allRecords = l₁ ++ r :: (l₂ ++ r₂ :: l₃))
    (hbefore : ∀ x ∈ l₁, ∃ n, x.Name = some n ∧ n ≠ input.address_prefix_name)
    (hr : r.Name = some input.address_prefix_name)
    (hr₂ : r₂.Name = some input.address_prefix_name) :
    (dataSourceIBMIsVPCAddressPrefixRead api input).result = .ok r := by
  have hscan : scanForName AddressPrefix.Name input.address_prefix_name
      (api.prefixServer input.vpc).allRecords = .found r := by
    rw [hsplit]
    exact scan_found _ _ _ _ _ hbefore hr
  rw [read_vpc_given api input h1, resolveTarget_by_name api input input.vpc 0 h2 hok,
    hscan]

/-- Three-page listing with `"alpha"` records on both the second and the
third page. -/
def serverDupAlpha : Server AddressPrefix :=
  .page [mkPrefix "p1" "beta"] "c2"
    (.page [mkPrefix "p2" "alpha"] "c3"
      (.done [mkPrefix "p3" "alpha"]))

/-- Remote API serving `serverDupAlpha` as every VPC's address prefix
listing. -/
def apiDupAlpha : RemoteApi :=
  ⟨Server.done [], fun _ _ => Except.error "unused", fun _ => serverDupAlpha⟩

/-- C3 witness: of the two `"alpha"` records on pages 2 and 3, the page-2
record (id `p2`) is returned. -/
theorem C3_witness :
    (dataSourceIBMIsVPCAddressPrefixRead apiDupAlpha inputAlpha).result =
      .ok (mkPrefix "p2" "alpha") := by
  have h := C3_first_match apiDupAlpha inputAlpha (by decide) rfl rfl
    [mkPrefix "p1" "beta"] [] [] (mkPrefix "p2" "alpha") (mkPrefix "p3" "alpha") rfl
    (fun x hx => by
      have hmem : x = mkPrefix "p1" "beta" := by simpa using hx
      subst hmem
      exact ⟨"beta", rfl, by decide⟩)
    rfl rfl
  exact h

/-- C4: with the address prefix id supplied (line 149,
`address_prefix_id != ""`), the handler makes exactly one
`GetVPCAddressPrefixWithContext` call and no
`ListVPCAddressPrefixesWithContext` call, and on success returns exactly the
fetched record (lines 150-162). -/
theorem C4_fetch_by_id (api : RemoteApi) (input : ReadInput)
    (h1 : input.vpc ≠ "") (h2 : input.address_prefix ≠ "") :
    (dataSourceIBMIsVPCAddressPrefixRead api input).getByIdCalls = 1 ∧
    (dataSourceIBMIsVPCAddressPrefixRead api input).prefixListCalls = 0 ∧
    ∀ ap, api.getVPCAddressPrefix input.vpc input.address_prefix = .ok ap →
      (dataSourceIBMIsVPCAddressPrefixRead api input).result = .ok ap := by
  rw [read_vpc_given api input h1]
  unfold resolveTarget
  rw [if_pos h2]
  cases hg : api.getVPCAddressPrefix input.vpc input.address_prefix with
  | error e => exact ⟨rfl, rfl, fun ap hap => by simp at hap⟩
  | ok ap₀ =>
      exact ⟨rfl, rfl, fun ap hap => by
        injection hap with h
        subst h
        rfl⟩

/-- Remote API whose get-by-id endpoint returns the `p9`/`alpha` record for
every key; its list chains are unused by an id-mode request. -/
def apiGetOk : RemoteApi :=
  ⟨Server.done [], fun _ _ => Except.ok (mkPrefix "p9" "alpha"),
    fun _ => Server.done []⟩

/-- Request: VPC by id, address prefix by id. -/
def inputById : ReadInput := ⟨"vpc-1", "", "ap-1", ""⟩

/-- C4 witness: one get call, zero list calls, and the fetched record is
returned. -/
theorem C4_witness :
    (dataSourceIBMIsVPCAddressPrefixRead apiGetOk inputById).getByIdCalls = 1 ∧
    (dataSourceIBMIsVPCAddressPrefixRead apiGetOk inputById).prefixListCalls = 0 ∧
    (dataSourceIBMIsVPCAddressPrefixRead apiGetOk inputById).result =
      .ok (mkPrefix "p9" "alpha") := by
  have h := C4_fetch_by_id apiGetOk inputById (by decide) (by decide)
  exact ⟨h.1, h.2.1, h.2.2 (mkPrefix "p9" "alpha") rfl⟩

/-- C5: a failing remote call aborts resolution at once, the error wrapped
with the constructor naming the failing operation, the underlying cause kept
intact.  If the `k`-th `ListVpcsWithContext` call fails (lines 122-127), the
handler stops at `k` VPC list calls and makes no further remote call of any
kind; if the direct fetch fails (lines 155-160), no prefix list call is
made; if the `k`-th `ListVPCAddressPrefixesWithContext` call fails (lines
173-178), the handler stops at exactly `k` prefix list calls — no retry, no
further pages. -/
theorem C5_remote_error (api : RemoteApi) (input : ReadInput) :
    (∀ e k, input.vpc = "" →
      api.vpcServer.firstFailure = some (e, k) →
      (dataSourceIBMIsVPCAddressPrefixRead api input).result =
        .error (.remoteListVpcs e) ∧
      (dataSourceIBMIsVPCAddressPrefixRead api input).vpcListCalls = k ∧
      (dataSourceIBMIsVPCAddressPrefixRead api input).getByIdCalls = 0 ∧
      (dataSourceIBMIsVPCAddressPrefixRead api input).prefixListCalls = 0) ∧
    (∀ e, input.vpc ≠ "" → input.address_prefix ≠ "" →
      api.getVPCAddressPrefix input.vpc input.address_prefix = .error e →
      (dataSourceIBMIsVPCAddressPrefixRead api input).result = .error (.remoteGet e) ∧
      (dataSourceIBMIsVPCAddressPrefixRead api input).prefixListCalls = 0) ∧
    (∀ e k, input.vpc ≠ "" → input.address_prefix = "" →
      (api.prefixServer input.vpc).firstFailure = some (e, k) →
      (dataSourceIBMIsVPCAddressPrefixRead api input).result =
        .error (.remoteListPrefixes e) ∧
      (dataSourceIBMIsVPCAddressPrefixRead api input).prefixListCalls = k) := by
  refine ⟨?_, ?_, ?_⟩
  · intro e k hvpc hf
    have hread : dataSourceIBMIsVPCAddressPrefixRead api input =
        ⟨.error (.remoteListVpcs e), 0 + k, 0, 0⟩ := by
      unfold dataSourceIBMIsVPCAddressPrefixRead
      rw [if_pos hvpc, paginate_fail _ _ _ _ _ hf]
    rw [hread]
    exact ⟨rfl, Nat.zero_add k, rfl, rfl⟩
  · intro e h1 h2 hg
    rw [read_vpc_given api input h1]
    unfold resolveTarget
    rw [if_pos h2, hg]
    exact ⟨rfl, rfl⟩
  · intro e k h1 h2 hf
    rw [read_vpc_given api input h1]
    unfold resolveTarget
    rw [if_neg (by simp [h2]), paginate_fail _ _ _ _ _ hf]
    exact ⟨rfl, Nat.zero_add k⟩

/-- Listing whose second call fails with underlying cause `"boom"`. -/
def serverFailSecond : Server AddressPrefix :=
  .page [mkPrefix "p1" "beta"] "c2" (.fail "boom")

/-- Remote API with a failing get-by-id endpoint and the second-call-failing
listing. -/
def apiFail : RemoteApi :=
  ⟨Server.done [], fun _ _ => Except.error "get-boom", fun _ => serverFailSecond⟩

/-- Remote API whose very first `ListVpcsWithContext` call fails with cause
`"vboom"`. -/
def apiVpcFail : RemoteApi :=
  ⟨Server.fail "vboom", fun _ _ => Except.error "unused", fun _ => Server.done []⟩

/-- C5 witness, one scenario per failing call: the first VPC list call fails
and the handler stops with the wrapped cause `"vboom"` after 1 VPC list call
and no other remote call; the direct fetch fails with cause `"get-boom"` and
no prefix list call is made; the second prefix list call fails and the
handler surfaces the wrapped cause `"boom"` after exactly 2 list calls. -/
theorem C5_witness :
    ((dataSourceIBMIsVPCAddressPrefixRead apiVpcFail inputVpcByName).result =
        .error (.remoteListVpcs "vboom") ∧
      (dataSourceIBMIsVPCAddressPrefixRead apiVpcFail inputVpcByName).vpcListCalls = 1 ∧
      (dataSourceIBMIsVPCAddressPrefixRead apiVpcFail inputVpcByName).getByIdCalls = 0 ∧
      (dataSourceIBMIsVPCAddressPrefixRead apiVpcFail inputVpcByName).prefixListCalls = 0) ∧
    ((dataSourceIBMIsVPCAddressPrefixRead apiFail inputById).result =
        .error (.remoteGet "get-boom") ∧
      (dataSourceIBMIsVPCAddressPrefixRead apiFail inputById).prefixListCalls = 0) ∧
    ((dataSourceIBMIsVPCAddressPrefixRead apiFail inputAlpha).result =
        .error (.remoteListPrefixes "boom") ∧
      (dataSourceIBMIsVPCAddressPrefixRead apiFail inputAlpha).prefixListCalls = 2) :=
  ⟨(C5_remote_error apiVpcFail inputVpcByName).1 "vboom" 1 rfl rfl,
    (C5_remote_error apiFail inputById).2.1 "get-boom" (by decide) (by decide) rfl,
    (C5_remote_error apiFail inputAlpha).2.2 "boom" 2 (by decide) rfl rfl⟩

/-- Two strings agree on emptiness exactly when their emptiness flags are
equal as booleans. -/
theorem beq_empty_congr (a b : String) (h : a = "" ↔ b = "") :
    ((a == "") == (b == "")) = true := by
  by_cases ha : a = ""
  · have hb : b = "" := h.mp ha
    rw [ha, hb]
    decide
  · have hb : ¬b = "" := fun hb => ha (h.mpr hb)
    have ha2 : (a == "") = false := by simpa using ha
    have hb2 : (b == "") = false := by simpa using hb
    rw [ha2, hb2]
    rfl

/-- C6: when both or neither member of either `ExactlyOneOf` pair is
supplied, the framework-validated read rejects the configuration with an
ambiguous-input error before the handler runs, having made zero
`ListVpcsWithContext`, `GetVPCAddressPrefixWithContext` and
`ListVPCAddressPrefixesWithContext` calls. -/
theorem C6_ambiguous (api : RemoteApi) (input : ReadInput)
    (h : (input.vpc = "" ↔ input.vpc_name = "") ∨
      (input.address_prefix = "" ↔ input.address_prefix_name = "")) :
    (∃ f1 f2, (frameworkRead api input).result =
      .error (.ambiguousInput f1 f2)) ∧
    (frameworkRead api input).vpcListCalls = 0 ∧
    (frameworkRead api input).getByIdCalls = 0 ∧
    (frameworkRead api input).prefixListCalls = 0 := by
  have hmain : ∃ f1 f2, frameworkRead api input =
      ⟨.error (.ambiguousInput f1 f2), 0, 0, 0⟩ := by
    unfold frameworkRead
    by_cases hc1 : ((input.vpc == "") == (input.vpc_name == "")) = true
    · exact ⟨"vpc", "vpc_name", by rw [if_pos hc1]⟩
    · rw [if_neg hc1]
      rcases h with h | h
      · exact absurd (beq_empty_congr _ _ h) hc1
      · have hc2 := beq_empty_congr _ _ h
        exact ⟨"address_prefix", "address_prefix_name", by rw [if_pos hc2]⟩
  obtain ⟨f1, f2, hw⟩ := hmain
  rw [hw]
  exact ⟨⟨f1, f2, rfl⟩, rfl, rfl, rfl⟩

/-- Configuration supplying neither member of either pair. -/
def inputNothing : ReadInput := ⟨"", "", "", ""⟩

/-- Remote API with empty listings and a failing get endpoint, for requests
that must make no remote call at all. -/
def apiInert : RemoteApi :=
  ⟨Server.done [], fun _ _ => Except.error "unused", fun _ => Server.done []⟩

/-- C6 witness: the all-empty configuration is rejected as ambiguous with
zero remote calls. -/
theorem C6_witness :
    (∃ f1 f2, (frameworkRead apiInert inputNothing).result =
      .error (.ambiguousInput f1 f2)) ∧
    (frameworkRead apiInert inputNothing).vpcListCalls = 0 ∧
    (frameworkRead apiInert inputNothing).getByIdCalls = 0 ∧
    (frameworkRead apiInert inputNothing).prefixListCalls = 0 :=
  C6_ambiguous apiInert inputNothing (Or.inl Iff.rfl)

/-- C7: flattening any resolved record succeeds, and binds `"zone"` to the
empty list when the record's `Zone` reference is nil (lines 225, 233) and to
a singleton list of one mapping when it is non-nil (lines 226-232); the key
is never omitted. -/
theorem flatten_zone_none (ap : AddressPrefix) (hz : ap.Zone = none) :
    flattenAddressPrefix ap = .ok (flatBase ap ++ [("zone", .zoneList [])]) := by
  rw [flattenAddressPrefix, hz]

theorem flatten_zone_some (ap : AddressPrefix) (z : ZoneReference)
    (hz : ap.Zone = some z) :
    flattenAddressPrefix ap = .ok (flatBase ap ++ [("zone", .zoneList
      [(dataSourceIBMIsVPCAddressPrefixZoneReferenceToMap z).1])]) := by
  rw [flattenAddressPrefix, hz]
  rfl

theorem C7_zone_flatten (ap : AddressPrefix) :
    ∃ l, flattenAddressPrefix ap = .ok l ∧
      (ap.Zone = none → l.lookup "zone" = some (.zoneList [])) ∧
      (∀ z, ap.Zone = some z → ∃ m, l.lookup "zone" = some (.zoneList [m])) := by
  cases hz : ap.Zone with
  | none =>
      have hflat := flatten_zone_none ap hz
      refine ⟨_, hflat, fun _ => rfl, fun z hzz => ?_⟩
      simp at hzz
  | some z =>
      have hflat := flatten_zone_some ap z hz
      refine ⟨_, hflat, fun hzz => ?_, fun z₂ hzz => ?_⟩
      · simp at hzz
      · exact ⟨(dataSourceIBMIsVPCAddressPrefixZoneReferenceToMap z).1, rfl⟩

/-- Record with nil `Zone` (and nil `CIDR`). -/
def apNoZone : AddressPrefix :=
  ⟨some "p1", some "alpha", none, none, none, none, none, none⟩

/-- C7 witness: flattening the nil-zone record yields `"zone" ↦ []`. -/
theorem C7_witness :
    ∃ l, flattenAddressPrefix apNoZone = .ok l ∧
      l.lookup "zone" = some (.zoneList []) := by
  obtain ⟨l, h1, h2, _⟩ := C7_zone_flatten apNoZone
  exact ⟨l, h1, h2 rfl⟩

/-- C8: the claim asserts every declared field is omitted from the output
when the source field is absent.  The code omits only within the nested zone
mapping; the top-level `d.Set` calls (lines 201-223) run unconditionally, so
a record with nil `CIDR` still yields the key `"cidr"`, bound to the nil
value rather than omitted. -/
theorem C8_counterexample :
    ∃ l, flattenAddressPrefix apNoZone = .ok l ∧ apNoZone.CIDR = none ∧
      l.lookup "cidr" = some (.str none) :=
  ⟨_, rfl, rfl, rfl⟩

/-- C8 (amended): absence-means-omission holds exactly for the nested zone
mapping — it contains `"href"` with the reference's href iff `Href` is
non-nil and `"name"` with the reference's name iff `Name` is non-nil — while
every top-level declared field is always written, an absent source field
appearing as the nil value, not omitted. -/
theorem C8_amended :
    (∀ m : ZoneReference,
      (dataSourceIBMIsVPCAddressPrefixZoneReferenceToMap m).1.lookup "href" = m.Href ∧
      (dataSourceIBMIsVPCAddressPrefixZoneReferenceToMap m).1.lookup "name" = m.Name) ∧
    (∀ ap l, flattenAddressPrefix ap = .ok l →
      l.lookup "cidr" = some (.str ap.CIDR) ∧
      l.lookup "href" = some (.str ap.Href) ∧
      l.lookup "name" = some (.str ap.Name)) := by
  constructor
  · intro m
    obtain ⟨h, n⟩ := m
    cases h <;> cases n <;> exact ⟨rfl, rfl⟩
  · intro ap l hl
    cases hz : ap.Zone with
    | none =>
        rw [flatten_zone_none ap hz] at hl
        injection hl with h
        subst h
        exact ⟨rfl, rfl, rfl⟩
    | some z =>
        rw [flatten_zone_some ap z hz] at hl
        injection hl with h
        subst h
        exact ⟨rfl, rfl, rfl⟩

/-- C8 (amended) witness: at a concrete zone reference with href only, the
mapping has `"href"` and lacks `"name"`; at the nil-`CIDR` record the
top-level `"cidr"` key is present with the nil value. -/
theorem C8_amended_witness :
    ((dataSourceIBMIsVPCAddressPrefixZoneReferenceToMap ⟨some "zh", none⟩).1.lookup "href" =
      some "zh") ∧
    ((dataSourceIBMIsVPCAddressPrefixZoneReferenceToMap ⟨some "zh", none⟩).1.lookup "name" =
      none) ∧
    List.lookup "cidr"
      [("cidr", AttrValue.str none), ("created_at", AttrValue.strVal ""),
       ("has_subnets", AttrValue.boolv none), ("href", AttrValue.str none),
       ("is_default", AttrValue.boolv none), ("name", AttrValue.str (some "alpha")),
       ("zone", AttrValue.zoneList [])] = some (AttrValue.str apNoZone.CIDR) :=
  ⟨(C8_amended.1 ⟨some "zh", none⟩).1, (C8_amended.1 ⟨some "zh", none⟩).2,
    (C8_amended.2 apNoZone _ rfl).1⟩

/-- C9: `dataSourceIBMIsVPCAddressPrefixZoneReferenceToMap` returns the nil
error on every input (line 248, `return modelMap, nil`), so the error branch
at lines 228-230 of the read handler is unreachable and flattening always
succeeds. -/
theorem C9_zone_to_map_total :
    (∀ m : ZoneReference,
      (dataSourceIBMIsVPCAddressPrefixZoneReferenceToMap m).2 = none) ∧
    (∀ ap : AddressPrefix, ∃ l, flattenAddressPrefix ap = .ok l) := by
  refine ⟨fun m => rfl, fun ap => ?_⟩
  cases hz : ap.Zone with
  | none => exact ⟨_, flatten_zone_none ap hz⟩
  | some z => exact ⟨_, flatten_zone_some ap z hz⟩

/-- Name scans inside target resolution never crash on a nil name when every
listed address prefix has a non-nil `Name`. -/
theorem resolveTarget_no_nil_name (api : RemoteApi) (input : ReadInput)
    (vpc_id : String) (vpcCalls : Nat)
    (hp : ∀ r ∈ (api.prefixServer vpc_id).allRecords, r.Name.isSome) :
    (resolveTarget api input vpc_id vpcCalls).result ≠ .error .nilNameDeref := by
  unfold resolveTarget
  by_cases hid : input.address_prefix ≠ ""
  · rw [if_pos hid]
    cases hg : api.getVPCAddressPrefix vpc_id input.address_prefix <;> simp
  · rw [if_neg hid]
    cases hpag : paginate (api.prefixServer vpc_id) [] 0 with
    | error p =>
        obtain ⟨e, n⟩ := p
        simp
    | ok p =>
        obtain ⟨allrecs, n⟩ := p
        have hl : allrecs = [] ++ (api.prefixServer vpc_id).allRecords :=
          paginate_ok_inv _ _ _ _ _ hpag
        have hscan := scan_no_crash AddressPrefix.Name input.address_prefix_name
          allrecs (by rw [hl]; simpa using hp)
        cases hs : scanForName AddressPrefix.Name input.address_prefix_name allrecs with
        | found r => simp [hs]
        | notFound => simp [hs]
        | nilNameDeref => exact absurd hs hscan

/-- C10: the scans at lines 135-141 and 185-192 dereference each record's
`Name` with no nil check.  When every record of the VPC listing and of every
address prefix listing has a non-nil `Name`, no scan ever hits the nil
dereference; and a listing containing a nil-`Name` record does reach it. -/
theorem C10_nil_name :
    (∀ (api : RemoteApi) (input : ReadInput),
      (∀ v ∈ api.vpcServer.allRecords, v.Name.isSome) →
      (∀ pid, ∀ r ∈ (api.prefixServer pid).allRecords, r.Name.isSome) →
      (dataSourceIBMIsVPCAddressPrefixRead api input).result ≠
        .error .nilNameDeref) ∧
    (dataSourceIBMIsVPCAddressPrefixRead
      ⟨Server.done [], fun _ _ => Except.error "unused",
        fun _ => Server.done [⟨some "p1", none, none, none, none, none, none, none⟩]⟩
      inputAlpha).result = .error .nilNameDeref := by
  constructor
  · intro api input hv hp
    unfold dataSourceIBMIsVPCAddressPrefixRead
    by_cases hvpc : input.vpc = ""
    · rw [if_pos hvpc]
      cases hpag : paginate api.vpcServer [] 0 with
      | error p =>
          obtain ⟨e, n⟩ := p
          simp
      | ok p =>
          obtain ⟨allrecs, n⟩ := p
          have hl : allrecs = [] ++ api.vpcServer.allRecords :=
            paginate_ok_inv _ _ _ _ _ hpag
          have hscan := scan_no_crash VPC.Name input.vpc_name allrecs
            (by rw [hl]; simpa using hv)
          cases hs : scanForName VPC.Name input.vpc_name allrecs with
          | found v =>
              cases hvid : v.ID with
              | none => simp [hs, hvid]
              | some vid =>
                  have hres := resolveTarget_no_nil_name api input vid n (hp vid)
                  simpa [hs, hvid] using hres
          | notFound => simp [hs]
          | nilNameDeref => exact absurd hs hscan
    · rw [if_neg hvpc]
      exact resolveTarget_no_nil_name api input input.vpc 0 (hp input.vpc)
  · rfl

/-- C10 witness: with empty listings the non-nil-name precondition holds and
the handler indeed does not produce the nil-name crash. -/
theorem C10_witness :
    (dataSourceIBMIsVPCAddressPrefixRead apiInert inputAlpha).result ≠
      .error .nilNameDeref :=
  C10_nil_name.1 apiInert inputAlpha (fun v hv => by cases hv)
    (fun pid r hr => by cases hr)

end VpcAddressPrefix
